import Mathlib

/-!
# Verification of the hack_yourself.shop storefront

Shallow embedding of the Flask e-commerce application (session cart,
checkout, order numbering, admin status management, auth tokens) and
proofs of the specification claims about it.

Python dicts (the session cart) are modelled as association lists in
insertion order with unique keys, Python `float` prices as `Rat`,
machine integers as `Int`/`Nat`.  Fallible operations (`int(...)`
parsing, `get_or_404`) return `Option`.
-/

set_option autoImplicit false

namespace HackShop

/-- `Product` row from `app/models.py`: id, name, price (Float), description,
image and category are irrelevant to the claims beyond id/name/price. -/
structure Product where
  id : Nat
  name : String
  price : Rat
  deriving Repr, DecidableEq

/-- `User` row from `app/models.py` (the fields the routes read). -/
structure User where
  id : Nat
  email : String
  password_hash : String
  is_admin : Bool
  full_name : String
  default_address : String
  email_confirmed : Bool
  deriving Repr, DecidableEq

/-- `OrderItem` row from `app/models.py`. -/
structure OrderItem where
  product_id : Nat
  quantity : Int
  price_snapshot : Rat
  deriving Repr, DecidableEq

/-- `Order` row from `app/models.py`; its `items` relationship is inlined. -/
structure Order where
  id : Nat
  user_id : Option Nat
  customer_name : String
  email : String
  address : String
  status : String
  user_order_no : Option Int
  stripe_session_id : Option String
  items : List OrderItem
  deriving Repr, DecidableEq

/-- Python `str.strip()`: drop leading and trailing whitespace.  Written over
the character list so that it evaluates in the kernel. -/
def py_strip (s : String) : String :=
  String.mk (((s.data.dropWhile Char.isWhitespace).reverse.dropWhile Char.isWhitespace).reverse)

/-- Python `str.lower()` (the emails handled by the routes are ASCII). -/
def py_lower (s : String) : String := String.mk (s.data.map Char.toLower)

/-- Value of a list of decimal digit characters. -/
def digitsVal (l : List Char) : Nat :=
  l.foldl (fun acc c => acc * 10 + (c.toNat - ('0').toNat)) 0

/-- Python `int(s)` on a string: an optionally signed non-empty run of
decimal digits; anything else raises ValueError (`none`). -/
def py_int? (s : String) : Option Int :=
  match s.data with
  | [] => none
  | '-' :: rest =>
    if rest.isEmpty then none
    else if rest.all Char.isDigit then some (-(digitsVal rest : Int)) else none
  | '+' :: rest =>
    if rest.isEmpty then none
    else if rest.all Char.isDigit then some ((digitsVal rest : Int)) else none
  | l =>
    if l.all Char.isDigit then some ((digitsVal l : Int)) else none

/-- The session cart: Python dict `{str(product_id): int(quantity)}`,
modelled as an association list in insertion order with unique keys. -/
abbrev Cart := List (String × Int)

namespace Cart

/-- `cart.get(k)` / `cart[k]` lookup: first (hence, with unique keys, only)
entry for the key. -/
def get : Cart → String → Option Int
  | [], _ => none
  | e :: rest, k => if e.1 = k then some e.2 else get rest k

/-- `cart.keys()`. -/
def keys (c : Cart) : List String := c.map Prod.fst

/-- Python dict assignment `cart[k] = v`: replaces the value in place when
the key exists, otherwise appends (dicts keep insertion order). -/
def set : Cart → String → Int → Cart
  | [], k, v => [(k, v)]
  | e :: rest, k, v => if e.1 = k then (k, v) :: rest else e :: set rest k v

/-- `cart.pop(k, None)`: removes the key when present. -/
def pop : Cart → String → Cart
  | [], _ => []
  | e :: rest, k => if e.1 = k then pop rest k else e :: pop rest k

theorem get_set_self (c : Cart) (k : String) (v : Int) :
    get (set c k v) k = some v := by
  induction c with
  | nil => simp [get, set]
  | cons x xs ih =>
    by_cases hx : x.1 = k
    · simp [get, set, hx]
    · simp [get, set, hx, ih]

theorem get_set_ne (c : Cart) (k k' : String) (v : Int) (h : k' ≠ k) :
    get (set c k v) k' = get c k' := by
  have hk : ¬ k = k' := fun hh => h hh.symm
  induction c with
  | nil => simp [get, set, hk]
  | cons x xs ih =>
    by_cases hx : x.1 = k
    · have hx' : ¬ x.1 = k' := by rw [hx]; exact hk
      simp only [set, hx, if_true, get, hk, if_false, hx']
    · simp only [set, hx, if_false, get]
      by_cases hx' : x.1 = k'
      · simp only [hx', if_true]
      · simp only [hx', if_false, ih]

theorem get_pop_self (c : Cart) (k : String) : get (pop c k) k = none := by
  induction c with
  | nil => simp [get, pop]
  | cons x xs ih =>
    by_cases hx : x.1 = k
    · simp [get, pop, hx, ih]
    · simp [get, pop, hx, ih]

theorem get_pop_ne (c : Cart) (k k' : String) (h : k' ≠ k) :
    get (pop c k) k' = get c k' := by
  have hk : ¬ k = k' := fun hh => h hh.symm
  induction c with
  | nil => rfl
  | cons x xs ih =>
    by_cases hx : x.1 = k
    · have hx' : ¬ x.1 = k' := by rw [hx]; exact hk
      simp only [pop, hx, if_true, get, hx', if_false, ih, hk]
    · simp only [pop, hx, if_false, get]
      by_cases hx' : x.1 = k'
      · simp only [hx', if_true]
      · simp only [hx', if_false, ih]

end Cart

/-- `get_cart` from `app/utils.py`: `session.get("cart", {})`; the session
slot is `none` when no cart was ever saved. -/
def get_cart (sessionCart : Option Cart) : Cart := sessionCart.getD []

/-- `save_cart` from `app/utils.py`: `session["cart"] = cart`. -/
def save_cart (cart : Cart) : Option Cart := some cart

/-- `cart_add` from `app/blueprints/shop/routes.py`:
`Product.query.get_or_404(pid)` (outer `none` = 404), then
`cart[str(pid)] = cart.get(str(pid), 0) + max(1, qty)` and `save_cart(cart)`. -/
def cart_add (products : List Product) (sessionCart : Option Cart) (pid : Nat) (qty : Int) :
    Option (Option Cart) :=
  if products.any (fun p => p.id = pid) then
    let cart := get_cart sessionCart
    some (save_cart (Cart.set cart (toString pid)
      ((Cart.get cart (toString pid)).getD 0 + max 1 qty)))
  else
    none

/-- One step of the loop in `cart_update_api`: an incoming JSON item is the
pair of the results of `int(it.get("pid"))` and `int(it.get("qty", 0))`
(`none` = the conversion raised, so the item is skipped by `continue`);
otherwise `qty = max(0, ...)`, and the entry is set when `qty > 0` and
popped otherwise. -/
def cart_update_api_step (c : Cart) (it : Option Int × Option Int) : Cart :=
  match it.1, it.2 with
  | some pidI, some qtyI =>
    let pid := toString pidI
    let qty := max 0 qtyI
    if qty > 0 then Cart.set c pid qty else Cart.pop c pid
  | _, _ => c

/-- `cart_update_api` from `app/blueprints/shop/routes.py`: folds the incoming
items over the existing session cart and saves the result. -/
def cart_update_api (sessionCart : Option Cart) (incoming : List (Option Int × Option Int)) :
    Cart :=
  incoming.foldl cart_update_api_step (get_cart sessionCart)

/-- One step of the loop in `cart_update` (the HTML-form fallback): for a form
field `qty_<pid>` the pid is everything after the first underscore
(`key.split("_", 1)[1]`); `int(value)` failing yields `qty = 0`, otherwise
`qty = max(0, int(value))`; the entry is stored only when `qty > 0`. -/
def cart_update_form_step (c : Cart) (kv : String × String) : Cart :=
  if ("qty_".data).isPrefixOf kv.1.data then
    let pid := String.mk (kv.1.data.drop 4)
    let qty := match py_int? kv.2 with
      | some v => max 0 v
      | none => 0
    if qty > 0 then Cart.set c pid qty else c
  else c

/-- `cart_update` from `app/blueprints/shop/routes.py`: rebuilds the cart from
scratch (`cart = {}`) out of the `qty_*` form fields and saves it. -/
def cart_update_form (form : List (String × String)) : Cart :=
  form.foldl cart_update_form_step []

/-- `[int(pid) for pid in cart.keys()]` in `cart_items` (`app/utils.py`):
`none` when some key is not an integer literal (`int` raises ValueError). -/
def parse_ids : Cart → Option (List Int)
  | [] => some []
  | e :: rest =>
    match py_int? e.1, parse_ids rest with
    | some i, some l => some (i :: l)
    | _, _ => none

/-- One row of the result of `cart_items`. -/
structure CartLine where
  product : Product
  qty : Int
  line_total : Rat
  deriving Repr, DecidableEq

/-- The row `cart_items` builds for a selected product:
`qty = int(cart.get(str(p.id), 0))`, `line_total = p.price * qty`. -/
def cart_line_of (cart : Cart) (p : Product) : CartLine :=
  let q := (Cart.get cart (toString p.id)).getD 0
  { product := p, qty := q, line_total := p.price * (q : Rat) }

/-- One iteration of the result/total loop in `cart_items`:
`result.append(...)`, `total += line_total`. -/
def cart_items_step (cart : Cart) (acc : List CartLine × Rat) (p : Product) :
    List CartLine × Rat :=
  let line := cart_line_of cart p
  (acc.1 ++ [line], acc.2 + line.line_total)

/-- `cart_items` from `app/utils.py`: parses the cart keys, selects the
products whose id is among them (`Product.id.in_(ids)`, empty when `ids` is
empty), and accumulates rows and the running total in table order. -/
def cart_items (products : List Product) (cart : Cart) : Option (List CartLine × Rat) :=
  match parse_ids cart with
  | none => none
  | some ids =>
    let selected := if ids.isEmpty then ([] : List Product)
      else products.filter (fun p => ids.contains ((p.id : Int)))
    some (selected.foldl (cart_items_step cart) ([], 0))

/-- C3: adding an existing product aggregates its quantity in the session
cart: the entry for `str(pid)` becomes its previous value (0 when absent)
plus `max 1 qty`, every other entry is unchanged, and `get_cart` after the
save returns exactly the updated cart. -/
theorem C3_cart_add_aggregates (products : List Product) (cart : Cart) (pid : Nat) (qty : Int)
    (hp : ∃ p ∈ products, p.id = pid) :
    ∃ c' : Cart,
      cart_add products (some cart) pid qty = some (save_cart c') ∧
      Cart.get c' (toString pid) =
        some ((Cart.get cart (toString pid)).getD 0 + max 1 qty) ∧
      (∀ k, k ≠ toString pid → Cart.get c' k = Cart.get cart k) ∧
      get_cart (save_cart c') = c' := by
  obtain ⟨p, hpmem, hpid⟩ := hp
  have hany : products.any (fun p => p.id = pid) = true := by
    rw [List.any_eq_true]
    exact ⟨p, hpmem, by simp [hpid]⟩
  refine ⟨Cart.set (get_cart (some cart)) (toString pid)
    ((Cart.get (get_cart (some cart)) (toString pid)).getD 0 + max 1 qty), ?_, ?_, ?_, rfl⟩
  · simp [cart_add, hany]
  · simpa [get_cart] using
      Cart.get_set_self cart (toString pid)
        ((Cart.get cart (toString pid)).getD 0 + max 1 qty)
  · intro k hk
    simpa [get_cart] using
      Cart.get_set_ne cart (toString pid) k
        ((Cart.get cart (toString pid)).getD 0 + max 1 qty) hk

/-- Witness for C3 at a concrete input: product 1 exists, the cart holds two
of it, adding three more yields five. -/
theorem C3_cart_add_aggregates_witness :
    ∃ c' : Cart,
      cart_add [⟨1, "a", 5⟩] (some [("1", 2)]) 1 3 = some (save_cart c') ∧
      Cart.get c' (toString 1) =
        some ((Cart.get [("1", 2)] (toString 1)).getD 0 + max 1 3) ∧
      (∀ k, k ≠ toString 1 → Cart.get c' k = Cart.get [("1", 2)] k) ∧
      get_cart (save_cart c') = c' :=
  C3_cart_add_aggregates [⟨1, "a", 5⟩] [("1", 2)] 1 3 ⟨⟨1, "a", 5⟩, by decide, rfl⟩

theorem foldl_invariant {α β : Type} (P : α → Prop) (f : α → β → α) (l : List β) (init : α)
    (h0 : P init) (hstep : ∀ a b, P a → P (f a b)) : P (l.foldl f init) := by
  induction l generalizing init with
  | nil => exact h0
  | cons x xs ih => exact ih _ (hstep _ _ h0)

theorem Cart.mem_set {c : Cart} {k : String} {v : Int} {e : String × Int}
    (h : e ∈ Cart.set c k v) : e = (k, v) ∨ e ∈ c := by
  induction c with
  | nil => simpa [set] using h
  | cons x xs ih =>
    by_cases hx : x.1 = k
    · simp only [set, hx, if_true, List.mem_cons] at h
      rcases h with h | h
      · exact Or.inl h
      · exact Or.inr (List.mem_cons_of_mem _ h)
    · simp only [set, hx, if_false, List.mem_cons] at h
      rcases h with h | h
      · exact Or.inr (by rw [h]; exact List.mem_cons_self x xs)
      · rcases ih h with h' | h'
        · exact Or.inl h'
        · exact Or.inr (List.mem_cons_of_mem _ h')

theorem Cart.mem_pop {c : Cart} {k : String} {e : String × Int}
    (h : e ∈ Cart.pop c k) : e ∈ c := by
  induction c with
  | nil => simp [pop] at h
  | cons x xs ih =>
    by_cases hx : x.1 = k
    · simp only [pop, hx, if_true] at h
      exact List.mem_cons_of_mem _ (ih h)
    · simp only [pop, hx, if_false, List.mem_cons] at h
      rcases h with h | h
      · exact h ▸ List.mem_cons_self x xs
      · exact List.mem_cons_of_mem _ (ih h)

/-- C9 as written is false on the HTML-form fallback: the form field
`qty_foo` stores the non-integer pid `"foo"` with quantity 2 in the saved
cart instead of leaving it absent. -/
theorem C9_counterexample :
    py_int? "foo" = none ∧
    Cart.get (cart_update_form [("qty_foo", "2")]) "foo" = some 2 := by
  constructor
  · rfl
  · rfl

/-- C9 amended: both cart-update operations preserve the invariant that every
stored quantity is strictly positive.  The JSON API stores an entry only when
pid and qty both parse as integers and qty is positive, removes it when qty
parses non-positive, and leaves the prior cart untouched when parsing fails;
the HTML-form fallback stores an entry (under the raw pid string taken from
the field name) only when its quantity parses as a positive integer. -/
theorem C9_cart_updates_keep_quantities_positive (sessionCart : Option Cart)
    (incoming : List (Option Int × Option Int)) (form : List (String × String))
    (hpos : ∀ e ∈ get_cart sessionCart, 0 < e.2) :
    (∀ e ∈ cart_update_api sessionCart incoming, 0 < e.2) ∧
    (∀ e ∈ cart_update_form form, 0 < e.2) := by
  constructor
  · refine foldl_invariant (fun c => ∀ e ∈ c, 0 < e.2) cart_update_api_step incoming
      (get_cart sessionCart) hpos ?_
    intro c it hc
    match it with
    | (some pidI, some qtyI) =>
      by_cases hq : max 0 qtyI > 0
      · simp only [cart_update_api_step, hq, if_true]
        intro e he
        rcases Cart.mem_set he with h | h
        · rw [h]; exact hq
        · exact hc e h
      · simp only [cart_update_api_step, hq, if_false]
        intro e he
        exact hc e (Cart.mem_pop he)
    | (some _, none) => exact hc
    | (none, _) => exact hc
  · refine foldl_invariant (fun c => ∀ e ∈ c, 0 < e.2) cart_update_form_step form [] ?_ ?_
    · intro e he; cases he
    · intro c kv hc
      unfold cart_update_form_step
      by_cases hk : ("qty_".data).isPrefixOf kv.1.data
      · simp only [hk, if_true]
        cases hv : py_int? kv.2 with
        | none => simpa using hc
        | some v =>
          by_cases hq : max 0 v > 0
          · simp only [hv, hq, if_true]
            intro e he
            rcases Cart.mem_set he with h | h
            · rw [h]; exact hq
            · exact hc e h
          · simp only [hv, hq, if_false]
            exact hc
      · simp only [hk, if_false]
        exact hc

/-- Witness for C9 amended at a concrete input: a positive cart stays
positive under both update operations. -/
theorem C9_cart_updates_keep_quantities_positive_witness :
    (∀ e ∈ cart_update_api (some [("1", 2)]) [(some 3, some 4), (some 1, none)], 0 < e.2) ∧
    (∀ e ∈ cart_update_form [("qty_7", "5"), ("qty_8", "0"), ("other", "9")], 0 < e.2) :=
  C9_cart_updates_keep_quantities_positive (some [("1", 2)])
    [(some 3, some 4), (some 1, none)] [("qty_7", "5"), ("qty_8", "0"), ("other", "9")]
    (by decide)

theorem Cart.get_isSome_of_mem {c : Cart} {e : String × Int} (h : e ∈ c) :
    ∃ v, Cart.get c e.1 = some v := by
  induction c with
  | nil => cases h
  | cons x xs ih =>
    by_cases hx : x.1 = e.1
    · exact ⟨x.2, by simp [get, hx]⟩
    · rcases List.mem_cons.mp h with h' | h'
      · rw [h'] at hx; exact absurd rfl hx
      · obtain ⟨v, hv⟩ := ih h'
        exact ⟨v, by simp [get, hx, hv]⟩

theorem parse_ids_some (cart : Cart)
    (hkeys : ∀ e ∈ cart, ∃ i : Int, py_int? e.1 = some i) :
    ∃ ids, parse_ids cart = some ids ∧
      ∀ i : Int, i ∈ ids ↔ ∃ e ∈ cart, py_int? e.1 = some i := by
  induction cart with
  | nil => exact ⟨[], rfl, by simp⟩
  | cons e rest ih =>
    obtain ⟨i0, hi0⟩ := hkeys e (List.mem_cons_self e rest)
    obtain ⟨ids, hids, hiff⟩ := ih (fun e' he' => hkeys e' (List.mem_cons_of_mem _ he'))
    refine ⟨i0 :: ids, ?_, ?_⟩
    · simp [parse_ids, hi0, hids]
    · intro i
      constructor
      · intro hi
        rcases List.mem_cons.mp hi with h | h
        · exact ⟨e, List.mem_cons_self _ _, h ▸ hi0⟩
        · obtain ⟨e', he', hpe⟩ := (hiff i).mp h
          exact ⟨e', List.mem_cons_of_mem _ he', hpe⟩
      · rintro ⟨e', he', hpe⟩
        rcases List.mem_cons.mp he' with h | h
        · rw [h, hi0] at hpe
          exact List.mem_cons.mpr (Or.inl (Option.some.inj hpe).symm)
        · exact List.mem_cons.mpr (Or.inr ((hiff i).mpr ⟨e', h, hpe⟩))

theorem cart_items_foldl (cart : Cart) (sel : List Product) (acc : List CartLine) (t : Rat) :
    sel.foldl (cart_items_step cart) (acc, t) =
      (acc ++ sel.map (cart_line_of cart),
       t + ((sel.map (cart_line_of cart)).map CartLine.line_total).sum) := by
  induction sel generalizing acc t with
  | nil => simp
  | cons p ps ih =>
    simp only [List.foldl_cons, List.map_cons, List.sum_cons]
    rw [show cart_items_step cart (acc, t) p =
      (acc ++ [cart_line_of cart p], t + (cart_line_of cart p).line_total) from rfl]
    rw [ih]
    simp [add_assoc]

/-- C8 as written is false: a cart entry whose key is not even an integer
literal (reachable through the HTML-form fallback, see C9) makes
`cart_items` raise `ValueError` instead of returning a total; an empty
product table makes every entry stale, yet no total 0.0 is returned. -/
theorem C8_counterexample :
    cart_items [] [("foo", 2)] = none ∧
    ∀ lines : List CartLine, cart_items [] [("foo", 2)] ≠ some (lines, 0) := by
  refine ⟨rfl, ?_⟩
  intro lines h
  rw [show cart_items [] [("foo", 2)] = none from rfl] at h
  cases h

/-- C8 amended: provided every cart key is the canonical decimal string
`str(i)` of an integer (as every key written by `cart_add` and the JSON
cart-update API is), `cart_items` returns a total equal to the sum of
price times quantity over the returned rows, each returned row's qty is
the cart's stored quantity for that product, rows only ever refer to
products present in the table (stale entries are omitted and contribute
nothing), and a cart none of whose entries matches a product yields
`([], 0)`.  A key that is not an integer literal instead makes
`cart_items` raise (return `none`). -/
theorem C8_cart_items_total (products : List Product) (cart : Cart)
    (hkeys : ∀ e ∈ cart, ∃ i : Int, e.1 = toString i ∧ py_int? e.1 = some i) :
    ∃ lines total, cart_items products cart = some (lines, total) ∧
      total = (lines.map CartLine.line_total).sum ∧
      (∀ l ∈ lines, l.line_total = l.product.price * (l.qty : Rat) ∧
        l.product ∈ products ∧
        Cart.get cart (toString l.product.id) = some l.qty) ∧
      (∀ e ∈ cart, (∀ p ∈ products, e.1 ≠ toString p.id) →
        ∀ l ∈ lines, toString l.product.id ≠ e.1) ∧
      ((∀ e ∈ cart, ∀ p ∈ products, e.1 ≠ toString p.id) →
        cart_items products cart = some ([], 0)) := by
  obtain ⟨ids, hids, hiff⟩ :=
    parse_ids_some cart (fun e he => (hkeys e he).imp (fun i hi => hi.2))
  have hsel : ∀ sel, sel = (if ids.isEmpty then ([] : List Product)
      else products.filter (fun p => ids.contains ((p.id : Int)))) →
      sel = products.filter (fun p => ids.contains ((p.id : Int))) := by
    intro sel hs
    cases hni : ids.isEmpty
    · rw [hs, hni]; simp
    · rw [hs, hni]
      simp only [if_true]
      have : ids = [] := List.isEmpty_iff.mp hni
      subst this
      symm
      rw [List.filter_eq_nil_iff]
      intro p _
      simp [List.contains]
  set sel := products.filter (fun p => ids.contains ((p.id : Int))) with hseldef
  have hci : cart_items products cart =
      some (sel.map (cart_line_of cart),
        ((sel.map (cart_line_of cart)).map CartLine.line_total).sum) := by
    unfold cart_items
    rw [hids]
    have := hsel _ rfl
    simp only [this]
    rw [cart_items_foldl]
    simp
  -- every selected product's canonical key is a live cart key
  have hkeysel : ∀ p ∈ sel, ∃ e ∈ cart, e.1 = toString p.id := by
    intro p hp
    have hmem := List.mem_filter.mp hp
    have hcont : ((p.id : Nat) : Int) ∈ ids := by
      have := hmem.2
      simpa [List.contains] using this
    obtain ⟨e, he, hpe⟩ := (hiff _).mp hcont
    obtain ⟨i, hi1, hi2⟩ := hkeys e he
    rw [hi2] at hpe
    have : i = ((p.id : Nat) : Int) := Option.some.inj hpe
    refine ⟨e, he, ?_⟩
    rw [hi1, this]
    rfl
  refine ⟨sel.map (cart_line_of cart),
    ((sel.map (cart_line_of cart)).map CartLine.line_total).sum, hci, rfl, ?_, ?_, ?_⟩
  · intro l hl
    obtain ⟨p, hp, rfl⟩ := List.mem_map.mp hl
    obtain ⟨e, he, hekey⟩ := hkeysel p hp
    obtain ⟨v, hv⟩ := Cart.get_isSome_of_mem he
    rw [hekey] at hv
    refine ⟨rfl, (List.mem_filter.mp hp).1, ?_⟩
    show Cart.get cart (toString p.id) = some ((Cart.get cart (toString p.id)).getD 0)
    rw [hv]
    rfl
  · intro e he hst l hl
    obtain ⟨p, hp, rfl⟩ := List.mem_map.mp hl
    exact fun hkey => hst p (List.mem_filter.mp hp).1 hkey.symm
  · intro hnone
    have hselnil : sel = [] := by
      rw [hseldef, List.filter_eq_nil_iff]
      intro p hp
      simp only [decide_eq_true_eq, List.contains_iff_exists_mem_beq]
      rintro ⟨i, hi, hbeq⟩
      have hii : i = ((p.id : Nat) : Int) := by
        have := beq_iff_eq.mp hbeq
        omega
      obtain ⟨e, he, hpe⟩ := (hiff i).mp hi
      obtain ⟨j, hj1, hj2⟩ := hkeys e he
      rw [hj2] at hpe
      have : j = i := Option.some.inj hpe
      refine hnone e he p hp ?_
      rw [hj1, this, hii]
      rfl
    rw [hci, hselnil]
    rfl

/-- Witness for C8 amended at a concrete input: one live entry, one stale
entry, total 10 = 5 * 2. -/
theorem C8_cart_items_total_witness :
    ∃ lines total, cart_items [⟨1, "a", 5⟩] [("1", 2), ("9", 3)] = some (lines, total) ∧
      total = (lines.map CartLine.line_total).sum ∧
      (∀ l ∈ lines, l.line_total = l.product.price * (l.qty : Rat) ∧
        l.product ∈ [(⟨1, "a", 5⟩ : Product)] ∧
        Cart.get [("1", 2), ("9", 3)] (toString l.product.id) = some l.qty) ∧
      (∀ e ∈ ([("1", 2), ("9", 3)] : Cart),
        (∀ p ∈ [(⟨1, "a", 5⟩ : Product)], e.1 ≠ toString p.id) →
        ∀ l ∈ lines, toString l.product.id ≠ e.1) ∧
      ((∀ e ∈ ([("1", 2), ("9", 3)] : Cart), ∀ p ∈ [(⟨1, "a", 5⟩ : Product)],
          e.1 ≠ toString p.id) →
        cart_items [⟨1, "a", 5⟩] [("1", 2), ("9", 3)] = some ([], 0)) :=
  C8_cart_items_total [⟨1, "a", 5⟩] [("1", 2), ("9", 3)] (by
    intro e he
    rcases List.mem_cons.mp he with h | h
    · exact ⟨1, by rw [h]; decide, by rw [h]; rfl⟩
    · rcases List.mem_cons.mp h with h' | h'
      · exact ⟨9, by rw [h']; decide, by rw [h']; rfl⟩
      · cases h')

/-- The set of accepted status codes in `admin.order_status`
(`app/blueprints/admin/routes.py`). -/
def ORDER_STATUS_CODES : List String := ["new", "pending", "awaiting_payment", "paid", "canceled"]

/-- The status-assignment conditional of `admin.order_status` applied to one
order; `ns` is the already-stripped submitted string.  Inside the accepted
set only four of the five codes have an assignment branch. -/
def apply_status (o : Order) (ns : String) : Order :=
  if ORDER_STATUS_CODES.contains ns then
    if ns = "pending" then { o with status := "Обработка платежа" }
    else if ns = "awaiting_payment" then { o with status := "Ожидание платежа" }
    else if ns = "paid" then { o with status := "Оплачено" }
    else if ns = "canceled" then { o with status := "Платёж отменён" }
    else o
  else o

/-- `order_status` route: `Order.query.get_or_404(order_id)` (`none` = 404),
`new_status = (form.get("status") or "").strip()`, then the conditional. -/
def order_status (orders : List Order) (orderId : Nat) (submitted : String) :
    Option (List Order) :=
  if orders.any (fun o => o.id = orderId) then
    some (orders.map (fun o =>
      if o.id = orderId then apply_status o (py_strip submitted) else o))
  else none

/-- C4 as written is false for the code `"new"`: it is in the accepted set,
but the route has no assignment branch for it, so the order keeps whatever
status it had (here two different prior statuses both survive), instead of
being assigned a translated display label. -/
theorem C4_counterexample :
    "new" ∈ ORDER_STATUS_CODES ∧
    order_status [⟨1, none, "n", "e", "a", "Оплачено", none, none, []⟩] 1 "new" =
      some [⟨1, none, "n", "e", "a", "Оплачено", none, none, []⟩] ∧
    order_status [⟨1, none, "n", "e", "a", "Платёж отменён", none, none, []⟩] 1 "new" =
      some [⟨1, none, "n", "e", "a", "Платёж отменён", none, none, []⟩] := by
  refine ⟨by decide, ?_, ?_⟩ <;> rfl

/-- C4 amended: for an existing order, the order-status operation maps four
of the five accepted codes to their translated display labels
(pending → "Обработка платежа", awaiting_payment → "Ожидание платежа",
paid → "Оплачено", canceled → "Платёж отменён"); the accepted code "new"
and every string outside the accepted set leave the order's status
unchanged. -/
theorem C4_order_status_labels (orders : List Order) (orderId : Nat) (submitted : String)
    (hex : ∃ o ∈ orders, o.id = orderId) :
    order_status orders orderId submitted =
      some (orders.map (fun o =>
        if o.id = orderId then apply_status o (py_strip submitted) else o)) ∧
    (∀ o : Order,
      (apply_status o "pending").status = "Обработка платежа" ∧
      (apply_status o "awaiting_payment").status = "Ожидание платежа" ∧
      (apply_status o "paid").status = "Оплачено" ∧
      (apply_status o "canceled").status = "Платёж отменён" ∧
      apply_status o "new" = o) ∧
    (∀ o : Order, ∀ ns : String, ns ∉ ORDER_STATUS_CODES → apply_status o ns = o) := by
  refine ⟨?_, ?_, ?_⟩
  · obtain ⟨o, ho, hid⟩ := hex
    have hany : orders.any (fun o => o.id = orderId) = true :=
      List.any_eq_true.mpr ⟨o, ho, by simp [hid]⟩
    simp [order_status, hany]
  · intro o
    exact ⟨rfl, rfl, rfl, rfl, rfl⟩
  · intro o ns hns
    unfold apply_status
    rw [if_neg]
    intro hc
    exact hns (List.mem_of_elem_eq_true hc)

/-- Witness for C4 amended at a concrete input. -/
theorem C4_order_status_labels_witness :
    order_status [⟨1, none, "n", "e", "a", "new", none, none, []⟩] 1 "paid" =
      some (List.map (fun o =>
        if o.id = 1 then apply_status o (py_strip "paid") else o)
        [⟨1, none, "n", "e", "a", "new", none, none, []⟩]) ∧
    (∀ o : Order,
      (apply_status o "pending").status = "Обработка платежа" ∧
      (apply_status o "awaiting_payment").status = "Ожидание платежа" ∧
      (apply_status o "paid").status = "Оплачено" ∧
      (apply_status o "canceled").status = "Платёж отменён" ∧
      apply_status o "new" = o) ∧
    (∀ o : Order, ∀ ns : String, ns ∉ ORDER_STATUS_CODES → apply_status o ns = o) :=
  C4_order_status_labels [⟨1, none, "n", "e", "a", "new", none, none, []⟩] 1 "paid"
    ⟨⟨1, none, "n", "e", "a", "new", none, none, []⟩, by decide, rfl⟩

/-- `payment_success` from `app/blueprints/shop/routes.py`:
`order_id = request.args.get("order_id", type=int)` (`none` when missing or
non-integer), `Order.query.get_or_404(order_id)` (`none` result = 404), then
`order.status = "Оплачено"` and commit.  The requester is passed through but
never consulted: there is no authentication, ownership or Stripe check. -/
def payment_success (requester : Option User) (orders : List Order) (orderId : Option Nat) :
    Option (List Order) :=
  match requester, orderId with
  | _, none => none
  | _, some oid =>
    if orders.any (fun o => o.id = oid) then
      some (orders.map (fun o => if o.id = oid then { o with status := "Оплачено" } else o))
    else none

/-- C10: for an existing order id the payment-success endpoint sets exactly
that order's status to "Оплачено" unconditionally — the result is the same
for every requester (no authentication or ownership check) and does not
consult `stripe_session_id` — while a missing or unknown order id yields a
404 with no state returned. -/
theorem C10_payment_success_unverified (requester : Option User) (orders : List Order)
    (oid : Nat) (hex : ∃ o ∈ orders, o.id = oid) :
    payment_success requester orders (some oid) =
      some (orders.map (fun o => if o.id = oid then { o with status := "Оплачено" } else o)) ∧
    (∀ other : Option User,
      payment_success other orders (some oid) = payment_success requester orders (some oid)) ∧
    payment_success requester orders none = none ∧
    (∀ oid' : Nat, (∀ o ∈ orders, o.id ≠ oid') →
      payment_success requester orders (some oid') = none) := by
  obtain ⟨o, ho, hid⟩ := hex
  have hany : orders.any (fun o => o.id = oid) = true :=
    List.any_eq_true.mpr ⟨o, ho, by simp [hid]⟩
  refine ⟨?_, ?_, rfl, ?_⟩
  · simp [payment_success, hany]
  · intro other
    cases other <;> cases requester <;> rfl
  · intro oid' hnone
    have hno : orders.any (fun o => o.id = oid') = false := by
      rw [List.any_eq_false]
      intro x hx
      simp [hnone x hx]
    simp [payment_success, hno]

/-- Witness for C10 at a concrete input. -/
theorem C10_payment_success_unverified_witness :
    payment_success none [⟨1, none, "n", "e", "a", "new", none, none, []⟩] (some 1) =
      some (List.map (fun o => if o.id = 1 then { o with status := "Оплачено" } else o)
        [⟨1, none, "n", "e", "a", "new", none, none, []⟩]) ∧
    (∀ other : Option User,
      payment_success other [⟨1, none, "n", "e", "a", "new", none, none, []⟩] (some 1) =
        payment_success none [⟨1, none, "n", "e", "a", "new", none, none, []⟩] (some 1)) ∧
    payment_success none [⟨1, none, "n", "e", "a", "new", none, none, []⟩] none = none ∧
    (∀ oid' : Nat, (∀ o ∈ [(⟨1, none, "n", "e", "a", "new", none, none, []⟩ : Order)], o.id ≠ oid') →
      payment_success none [⟨1, none, "n", "e", "a", "new", none, none, []⟩] (some oid') = none) :=
  C10_payment_success_unverified none [⟨1, none, "n", "e", "a", "new", none, none, []⟩] 1
    ⟨⟨1, none, "n", "e", "a", "new", none, none, []⟩, by decide, rfl⟩

/-- `Category` row from `app/models.py`. -/
structure Category where
  id : Nat
  name : String
  deriving Repr, DecidableEq

/-- The admin-managed persistent state: categories, products, orders. -/
structure AdminState where
  categories : List Category
  products : List Product
  orders : List Order
  deriving Repr, DecidableEq

/-- `admin_required` from `app/utils.py`: passes exactly when the requester
is an authenticated user (`some u`) with `is_admin` set; otherwise the
request is aborted with 403. -/
def admin_required_passes : Option User → Bool
  | none => false
  | some u => u.is_admin

/-- Response of an admin route: 403 from the `before_request` hook, or the
handler's own response. -/
inductive AdminResponse (α : Type) where
  | forbidden
  | ok (a : α)
  deriving Repr, DecidableEq

/-- The `_check_admin` `before_request` hook of the admin blueprint
(`app/blueprints/admin/routes.py`) composed with an arbitrary admin route
handler: `admin_required()` runs before every route of the blueprint, and
an abort prevents the handler from running at all. -/
def admin_dispatch {α : Type} (requester : Option User) (st : AdminState)
    (handler : AdminState → AdminState × α) : AdminState × AdminResponse α :=
  if admin_required_passes requester then
    ((handler st).1, AdminResponse.ok (handler st).2)
  else
    (st, AdminResponse.forbidden)

/-- C6: every admin route (category, product and order-status management is
an instance of `handler`) answers 403 to any requester who is not an
authenticated admin, and the admin state — categories, products, orders —
is returned unchanged: the handler body never runs. -/
theorem C6_admin_gate {α : Type} (requester : Option User) (st : AdminState)
    (handler : AdminState → AdminState × α)
    (hnot : ∀ u, requester = some u → u.is_admin = false) :
    admin_dispatch requester st handler = (st, AdminResponse.forbidden) := by
  unfold admin_dispatch
  rw [if_neg]
  intro hpass
  cases requester with
  | none => simp [admin_required_passes] at hpass
  | some u =>
    have := hnot u rfl
    rw [show admin_required_passes (some u) = u.is_admin from rfl, this] at hpass
    cases hpass

/-- Witness for C6 at concrete inputs: a logged-in non-admin and an
anonymous requester both get 403 with the state untouched. -/
theorem C6_admin_gate_witness :
    admin_dispatch (some ⟨7, "u@x", "h", false, "", "", false⟩) ⟨[], [], []⟩
        (fun s => (s, 0)) = (⟨[], [], []⟩, AdminResponse.forbidden) ∧
    admin_dispatch (none : Option User) ⟨[], [], []⟩
        (fun s => (s, 0)) = (⟨[], [], []⟩, AdminResponse.forbidden) :=
  ⟨C6_admin_gate (some ⟨7, "u@x", "h", false, "", "", false⟩) ⟨[], [], []⟩ (fun s => (s, 0))
      (by intro u h; cases h; rfl),
   C6_admin_gate none ⟨[], [], []⟩ (fun s => (s, 0)) (by intro u h; cases h)⟩

/-- `password_is_strong` from `app/utils.py`: at least 6 characters, a
capital letter `[A-Z]`, a digit, and a character that is neither a letter
nor a digit (`[^A-Za-z0-9]`). -/
def password_is_strong (password : String) : Bool :=
  decide (password.length ≥ 6) &&
  password.data.any (fun c => c.isUpper) &&
  password.data.any (fun c => c.isDigit) &&
  password.data.any (fun c => !c.isAlphanum)

/-- Stand-in for `werkzeug.security.generate_password_hash`: the routes only
store hashes and compare via `check_password_hash`, so an injective tagging
function models it. -/
def generate_password_hash (password : String) : String := "pbkdf2$" ++ password

/-- `User.set_password` from `app/models.py`. -/
def set_password (u : User) (password : String) : User :=
  { u with password_hash := generate_password_hash password }

/-- Outcome of the register POST handler. -/
inductive RegisterResult where
  | formError
  | redirectLogin
  deriving Repr, DecidableEq

/-- `register` POST from `app/blueprints/auth/routes.py`:
`email = form.get("email","").strip().lower()`, empty-field check, password
strength check, uniqueness check, then `User(email=email)` with the hashed
password is added. -/
def register (users : List User) (formEmail formPassword : String) (newId : Nat) :
    List User × RegisterResult :=
  let email := py_lower (py_strip formEmail)
  if email = "" ∨ formPassword = "" then (users, RegisterResult.formError)
  else if password_is_strong formPassword = false then (users, RegisterResult.formError)
  else if users.any (fun u => u.email = email) then (users, RegisterResult.formError)
  else (users ++ [{ id := newId, email := email,
                    password_hash := generate_password_hash formPassword,
                    is_admin := false, full_name := "", default_address := "",
                    email_confirmed := false }], RegisterResult.redirectLogin)

/-- C7: registration creates a user exactly when the (stripped, lower-cased)
email and the password are non-empty, the password is strong (≥ 6 chars,
an uppercase letter, a digit, a non-alphanumeric character) and no user
with that email exists; in every failing case the user list is unchanged
and the form is re-shown with an error. -/
theorem C7_register_iff (users : List User) (formEmail formPassword : String) (newId : Nat) :
    (py_lower (py_strip formEmail) ≠ "" → formPassword ≠ "" →
      password_is_strong formPassword = true →
      (∀ u ∈ users, u.email ≠ py_lower (py_strip formEmail)) →
      register users formEmail formPassword newId =
        (users ++ [{ id := newId, email := py_lower (py_strip formEmail),
                     password_hash := generate_password_hash formPassword,
                     is_admin := false, full_name := "", default_address := "",
                     email_confirmed := false }], RegisterResult.redirectLogin)) ∧
    ((py_lower (py_strip formEmail) = "" ∨ formPassword = "" ∨
        password_is_strong formPassword = false ∨
        ∃ u ∈ users, u.email = py_lower (py_strip formEmail)) →
      register users formEmail formPassword newId = (users, RegisterResult.formError)) := by
  constructor
  · intro hemail hpwd hstrong huniq
    have hne : ¬ (py_lower (py_strip formEmail) = "" ∨ formPassword = "") := by
      rintro (h | h)
      · exact hemail h
      · exact hpwd h
    have hst : ¬ password_is_strong formPassword = false := by
      rw [hstrong]; intro h; cases h
    have hun : ¬ users.any (fun u => u.email = py_lower (py_strip formEmail)) = true := by
      rw [List.any_eq_true]
      rintro ⟨u, hu, hdec⟩
      exact huniq u hu (of_decide_eq_true hdec)
    unfold register
    rw [if_neg hne, if_neg hst, if_neg hun]
  · intro hfail
    unfold register
    rcases hfail with h | h | h | h
    · rw [if_pos (Or.inl h)]
    · rw [if_pos (Or.inr h)]
    · by_cases hne : py_lower (py_strip formEmail) = "" ∨ formPassword = ""
      · rw [if_pos hne]
      · rw [if_neg hne, if_pos h]
    · by_cases hne : py_lower (py_strip formEmail) = "" ∨ formPassword = ""
      · rw [if_pos hne]
      · rw [if_neg hne]
        by_cases hst : password_is_strong formPassword = false
        · rw [if_pos hst]
        · rw [if_neg hst]
          obtain ⟨u, hu, he⟩ := h
          rw [if_pos (List.any_eq_true.mpr ⟨u, hu, decide_eq_true he⟩)]

/-- Witness for C7 at concrete inputs (C7's theorem is hypothesis-free, but
its conjuncts are conditionals; both are exercised here): a strong password
and fresh email create the user, an empty email does not. -/
theorem C7_register_iff_witness :
    register [] "U@Example.com" "Abcd1!" 1 =
      ([{ id := 1, email := py_lower (py_strip "U@Example.com"),
          password_hash := generate_password_hash "Abcd1!",
          is_admin := false, full_name := "", default_address := "",
          email_confirmed := false }], RegisterResult.redirectLogin) ∧
    register [] "   " "Abcd1!" 1 = ([], RegisterResult.formError) := by
  constructor
  · have h := (C7_register_iff [] "U@Example.com" "Abcd1!" 1).1
      (by decide) (by decide) (by decide) (by intro u hu; cases hu)
    rw [h]
    rfl
  · exact (C7_register_iff [] "   " "Abcd1!" 1).2 (Or.inl (by decide))

theorem int_max?_eq_some_iff {a : Int} {xs : List Int} :
    xs.max? = some a ↔ a ∈ xs ∧ ∀ b ∈ xs, b ≤ a :=
  @List.max?_eq_some_iff Int a _ _ ⟨fun h h' => le_antisymm h h'⟩
    (fun a => le_refl a) (fun a b => max_choice a b) (fun _ _ _ => max_le_iff) xs

theorem le_max?_getD {l : List Int} {x : Int} (h : x ∈ l) : x ≤ l.max?.getD 0 := by
  cases hm : l.max? with
  | none =>
    rw [List.max?_eq_none_iff] at hm
    subst hm
    cases h
  | some m =>
    simpa using (int_max?_eq_some_iff.mp hm).2 x h

theorem max?_append_singleton (l : List Int) (n : Int) (h : ∀ x ∈ l, x ≤ n) :
    (l ++ [n]).max? = some n := by
  rw [int_max?_eq_some_iff]
  refine ⟨List.mem_append.mpr (Or.inr (List.mem_singleton.mpr rfl)), ?_⟩
  intro b hb
  rcases List.mem_append.mp hb with hb | hb
  · exact h b hb
  · rw [List.mem_singleton.mp hb]

/-- The per-customer filter of the numbering query in `checkout`:
`Order.user_id == uid` for a logged-in customer, and
`Order.user_id.is_(None) & Order.email == email` for a guest. -/
def order_matches (uid : Option Nat) (email : String) (o : Order) : Bool :=
  match uid with
  | some u => o.user_id = some u
  | none => o.user_id = none ∧ o.email = email

/-- The non-null `user_order_no` values `func.max` ranges over for one
customer. -/
def customer_order_nos (orders : List Order) (uid : Option Nat) (email : String) : List Int :=
  (orders.filter (order_matches uid email)).filterMap Order.user_order_no

/-- `last_no = query(func.max(Order.user_order_no)).filter(...).scalar() or 0`
followed by `order.user_order_no = last_no + 1` in `checkout`. -/
def next_user_order_no (orders : List Order) (uid : Option Nat) (email : String) : Int :=
  ((customer_order_nos orders uid email).max?).getD 0 + 1

/-- The address resolution in `checkout`:
`(form.get("address") or "").strip() or (current_user.default_address if
current_user.is_authenticated else "")`. -/
def checkout_address (user : Option User) (formAddress : String) : String :=
  if py_strip formAddress ≠ "" then py_strip formAddress
  else match user with
    | some u => u.default_address
    | none => ""

/-- The `OrderItem` built from one cart row in `checkout`:
`OrderItem(order=order, product_id=..., quantity=..., price_snapshot=...)`. -/
def order_item_of (r : CartLine) : OrderItem :=
  { product_id := r.product.id, quantity := r.qty, price_snapshot := r.product.price }

/-- Outcome of the checkout POST handler. -/
inductive CheckoutResult where
  | formError
  | emptyCartRedirect
  | stripeRedirect (url : String)
  | thankyou
  deriving Repr, DecidableEq

/-- `checkout` POST from `app/blueprints/shop/routes.py`.

The first argument models the Stripe integration: `none` means no Stripe
keys are configured, `some (Except.ok sid)` a Checkout Session the external
SDK created, `some (Except.error ())` an exception raised by the SDK (both
only possible when keys are configured).  The result is `none` when
`cart_items` raises, otherwise the new order list, the new session cart
slot, and the response. -/
def checkout_post (stripe : Option (Except Unit String))
    (products : List Product) (sessionCart : Option Cart) (user : Option User)
    (orders : List Order) (newOrderId : Nat)
    (formName formEmail formAddress : String) :
    Option (List Order × Option Cart × CheckoutResult) :=
  match cart_items products (get_cart sessionCart) with
  | none => none
  | some (items, total) =>
    let name := py_strip formName
    let email := py_lower (py_strip formEmail)
    let address := checkout_address user formAddress
    if ¬ (name ≠ "" ∧ email ≠ "" ∧ address ≠ "") then
      some (orders, sessionCart, CheckoutResult.formError)
    else if total ≤ 0 then
      some (orders, sessionCart, CheckoutResult.emptyCartRedirect)
    else
      let uid := user.map User.id
      let newOrder : Order := {
        id := newOrderId, user_id := uid, customer_name := name, email := email,
        address := address, status := "Обработка платежа",
        user_order_no := some (next_user_order_no orders uid email),
        stripe_session_id := none,
        items := items.map order_item_of }
      match stripe with
      | some (Except.ok sid) =>
        some (orders ++ [{ newOrder with stripe_session_id := some sid }], save_cart [],
          CheckoutResult.stripeRedirect sid)
      | some (Except.error _) =>
        some (orders ++ [{ newOrder with status := "Ожидание оплаты" }], save_cart [],
          CheckoutResult.thankyou)
      | none =>
        some (orders ++ [{ newOrder with status := "Ожидание оплаты" }], save_cart [],
          CheckoutResult.thankyou)

/-- The order the no-Stripe checkout path persists. -/
def checkout_new_order (user : Option User) (orders : List Order) (newOrderId : Nat)
    (formName formEmail formAddress : String) (items : List CartLine) : Order :=
  { id := newOrderId, user_id := user.map User.id,
    customer_name := py_strip formName,
    email := py_lower (py_strip formEmail),
    address := checkout_address user formAddress,
    status := "Ожидание оплаты",
    user_order_no := some (next_user_order_no orders (user.map User.id)
      (py_lower (py_strip formEmail))),
    stripe_session_id := none,
    items := items.map order_item_of }

theorem checkout_post_creates (products : List Product) (sessionCart : Option Cart)
    (user : Option User) (orders : List Order) (newOrderId : Nat)
    (formName formEmail formAddress : String) (items : List CartLine) (total : Rat)
    (hitems : cart_items products (get_cart sessionCart) = some (items, total))
    (htotal : 0 < total)
    (hname : py_strip formName ≠ "") (hemail : py_lower (py_strip formEmail) ≠ "")
    (haddr : checkout_address user formAddress ≠ "") :
    checkout_post none products sessionCart user orders newOrderId
        formName formEmail formAddress =
      some (orders ++ [checkout_new_order user orders newOrderId
          formName formEmail formAddress items],
        save_cart [], CheckoutResult.thankyou) := by
  have h1 : ¬ ¬ (py_strip formName ≠ "" ∧ py_lower (py_strip formEmail) ≠ "" ∧
      checkout_address user formAddress ≠ "") :=
    not_not_intro ⟨hname, hemail, haddr⟩
  unfold checkout_post
  simp only [hitems, if_neg h1, if_neg (not_le.mpr htotal)]
  rfl

theorem Cart.get_of_mem_nodup {c : Cart} {e : String × Int}
    (hnodup : (c.map Prod.fst).Nodup) (h : e ∈ c) : Cart.get c e.1 = some e.2 := by
  induction c with
  | nil => cases h
  | cons x xs ih =>
    rw [List.map_cons] at hnodup
    obtain ⟨hnotmem, hnodup'⟩ := List.nodup_cons.mp hnodup
    rcases List.mem_cons.mp h with h' | h'
    · subst h'
      simp [get]
    · have hx : ¬ x.1 = e.1 := by
        intro hh
        exact hnotmem (hh ▸ List.mem_map_of_mem Prod.fst h')
      simp only [get, hx, if_false]
      exact ih hnodup' h'

theorem parse_ids_sound {cart : Cart} {ids : List Int} (h : parse_ids cart = some ids) :
    ∀ i : Int, i ∈ ids ↔ ∃ e ∈ cart, py_int? e.1 = some i := by
  induction cart generalizing ids with
  | nil =>
    rw [show parse_ids [] = some [] from rfl] at h
    obtain rfl := Option.some.inj h
    simp
  | cons e rest ih =>
    unfold parse_ids at h
    cases hp : py_int? e.1 with
    | none =>
      rw [hp] at h
      cases hr : parse_ids rest with
      | none => rw [hr] at h; cases h
      | some l => rw [hr] at h; cases h
    | some i0 =>
      rw [hp] at h
      cases hr : parse_ids rest with
      | none => rw [hr] at h; cases h
      | some l =>
        rw [hr] at h
        obtain rfl := Option.some.inj h
        intro i
        constructor
        · intro hi
          rcases List.mem_cons.mp hi with h' | h'
          · exact ⟨e, List.mem_cons_self _ _, by rw [h']; exact hp⟩
          · obtain ⟨e', he', hpe⟩ := ((ih hr) i).mp h'
            exact ⟨e', List.mem_cons_of_mem _ he', hpe⟩
        · rintro ⟨e', he', hpe⟩
          rcases List.mem_cons.mp he' with h' | h'
          · subst h'
            rw [hp] at hpe
            exact List.mem_cons.mpr (Or.inl (Option.some.inj hpe).symm)
          · exact List.mem_cons.mpr (Or.inr (((ih hr) i).mpr ⟨e', h', hpe⟩))

theorem parse_ids_length {cart : Cart} {ids : List Int} (h : parse_ids cart = some ids) :
    ids.length = cart.length := by
  induction cart generalizing ids with
  | nil =>
    rw [show parse_ids [] = some [] from rfl] at h
    obtain rfl := Option.some.inj h
    rfl
  | cons e rest ih =>
    unfold parse_ids at h
    cases hp : py_int? e.1 with
    | none =>
      rw [hp] at h
      cases hr : parse_ids rest with
      | none => rw [hr] at h; cases h
      | some l => rw [hr] at h; cases h
    | some i0 =>
      rw [hp] at h
      cases hr : parse_ids rest with
      | none => rw [hr] at h; cases h
      | some l =>
        rw [hr] at h
        obtain rfl := Option.some.inj h
        simp [ih hr]

theorem parse_ids_nodup {cart : Cart} {ids : List Int}
    (h : parse_ids cart = some ids)
    (hcanon : ∀ e ∈ cart, ∃ i : Int, e.1 = toString i ∧ py_int? e.1 = some i)
    (hnodupK : (cart.map Prod.fst).Nodup) :
    ids.Nodup := by
  induction cart generalizing ids with
  | nil =>
    rw [show parse_ids [] = some [] from rfl] at h
    obtain rfl := Option.some.inj h
    exact List.nodup_nil
  | cons e rest ih =>
    unfold parse_ids at h
    rw [List.map_cons] at hnodupK
    obtain ⟨hnotmem, hnodup'⟩ := List.nodup_cons.mp hnodupK
    cases hp : py_int? e.1 with
    | none =>
      rw [hp] at h
      cases hr : parse_ids rest with
      | none => rw [hr] at h; cases h
      | some l => rw [hr] at h; cases h
    | some i0 =>
      rw [hp] at h
      cases hr : parse_ids rest with
      | none => rw [hr] at h; cases h
      | some l =>
        rw [hr] at h
        obtain rfl := Option.some.inj h
        refine List.nodup_cons.mpr ⟨?_,
          ih hr (fun e' he' => hcanon e' (List.mem_cons_of_mem _ he')) hnodup'⟩
        intro hi0
        obtain ⟨e', he', hpe⟩ := (parse_ids_sound hr i0).mp hi0
        obtain ⟨i, hi1, hi2⟩ := hcanon e (List.mem_cons_self _ _)
        obtain ⟨i', hi1', hi2'⟩ := hcanon e' (List.mem_cons_of_mem _ he')
        have hii : i = i0 := by
          rw [hp] at hi2
          exact Option.some.inj hi2.symm
        have hii' : i' = i0 := by
          rw [hpe] at hi2'
          exact Option.some.inj hi2'.symm
        have heq : e'.1 = e.1 := by
          rw [hi1, hi1', hii, hii']
        exact hnotmem (heq ▸ List.mem_map_of_mem Prod.fst he')

theorem cart_items_of_parse {products : List Product} {cart : Cart} {ids : List Int}
    (hids : parse_ids cart = some ids) :
    cart_items products cart =
      some ((products.filter (fun p => ids.contains ((p.id : Int)))).map (cart_line_of cart),
        (((products.filter (fun p => ids.contains ((p.id : Int)))).map
          (cart_line_of cart)).map CartLine.line_total).sum) := by
  have hsel : ∀ sel : List Product, (sel = if ids.isEmpty then ([] : List Product)
      else products.filter (fun p => ids.contains ((p.id : Int)))) →
      sel = products.filter (fun p => ids.contains ((p.id : Int))) := by
    intro sel hs
    cases hni : ids.isEmpty
    · rw [hs, hni]; simp
    · rw [hs, hni]
      simp only [if_true]
      have : ids = [] := List.isEmpty_iff.mp hni
      subst this
      symm
      rw [List.filter_eq_nil_iff]
      intro p _
      simp [List.contains]
  unfold cart_items
  rw [hids]
  have := hsel _ rfl
  simp only [this]
  rw [cart_items_foldl]
  simp

theorem selected_length {products : List Product} {cart : Cart} {ids : List Int}
    (hids : parse_ids cart = some ids)
    (hkeys : ∀ e ∈ cart, ∃ p ∈ products,
      e.1 = toString p.id ∧ py_int? e.1 = some ((p.id : Nat) : Int))
    (hnodupP : (products.map Product.id).Nodup)
    (hnodupK : (cart.map Prod.fst).Nodup) :
    (products.filter (fun p => ids.contains ((p.id : Int)))).length = cart.length := by
  have hcanon : ∀ e ∈ cart, ∃ i : Int, e.1 = toString i ∧ py_int? e.1 = some i := by
    intro e he
    obtain ⟨p, hp, h1, h2⟩ := hkeys e he
    exact ⟨((p.id : Nat) : Int), by rw [h1]; rfl, h2⟩
  have hidsnodup := parse_ids_nodup hids hcanon hnodupK
  have hselsub : ((products.filter (fun p => ids.contains ((p.id : Int)))).map
      Product.id).Sublist (products.map Product.id) :=
    (List.filter_sublist _).map _
  have hselnodupNat := hnodupP.sublist hselsub
  have hAnodup : ((products.filter (fun p => ids.contains ((p.id : Int)))).map
      (fun p => ((p.id : Nat) : Int))).Nodup := by
    have hmm : (products.filter (fun p => ids.contains ((p.id : Int)))).map
        (fun p => ((p.id : Nat) : Int)) =
        ((products.filter (fun p => ids.contains ((p.id : Int)))).map Product.id).map
          (fun n => ((n : Nat) : Int)) := by
      rw [List.map_map]
      rfl
    rw [hmm]
    exact List.Nodup.map (fun a b hab => Nat.cast_injective hab) hselnodupNat
  have hmemiff : ∀ i : Int,
      i ∈ (products.filter (fun p => ids.contains ((p.id : Int)))).map
        (fun p => ((p.id : Nat) : Int)) ↔ i ∈ ids := by
    intro i
    constructor
    · intro hmem
      obtain ⟨p, hp, rfl⟩ := List.mem_map.mp hmem
      exact List.mem_of_elem_eq_true (List.mem_filter.mp hp).2
    · intro hi
      obtain ⟨e, he, hpe⟩ := (parse_ids_sound hids i).mp hi
      obtain ⟨p, hp, h1, h2⟩ := hkeys e he
      have hip : i = ((p.id : Nat) : Int) := by
        rw [h2] at hpe
        exact (Option.some.inj hpe).symm
      subst hip
      refine List.mem_map.mpr ⟨p, List.mem_filter.mpr ⟨hp, ?_⟩, rfl⟩
      exact List.elem_eq_true_of_mem hi
  have hperm := (List.perm_ext_iff_of_nodup hAnodup hidsnodup).mpr hmemiff
  calc (products.filter (fun p => ids.contains ((p.id : Int)))).length
      = ((products.filter (fun p => ids.contains ((p.id : Int)))).map
        (fun p => ((p.id : Nat) : Int))).length := (List.length_map _ _).symm
    _ = ids.length := hperm.length_eq
    _ = cart.length := parse_ids_length hids

/-- C2: the order created at checkout is numbered per customer: its
`user_order_no` is one plus the maximum `user_order_no` among the customer's
existing orders (orders with the same `user_id` for a logged-in customer,
guest orders with null `user_id` and the same email otherwise); it is 1 when
the customer has no numbered order yet, it exceeds every existing number of
that customer, and the next checkout by the same customer is numbered one
higher — so each customer's numbers start at 1 and increase by 1. -/
theorem C2_order_numbering (products : List Product) (sessionCart : Option Cart)
    (user : Option User) (orders : List Order) (newOrderId : Nat)
    (formName formEmail formAddress : String) (items : List CartLine) (total : Rat)
    (hitems : cart_items products (get_cart sessionCart) = some (items, total))
    (htotal : 0 < total)
    (hname : py_strip formName ≠ "") (hemail : py_lower (py_strip formEmail) ≠ "")
    (haddr : checkout_address user formAddress ≠ "") :
    ∃ newOrder : Order,
      checkout_post none products sessionCart user orders newOrderId
          formName formEmail formAddress =
        some (orders ++ [newOrder], save_cart [], CheckoutResult.thankyou) ∧
      newOrder.user_order_no = some
        (((customer_order_nos orders (user.map User.id)
          (py_lower (py_strip formEmail))).max?).getD 0 + 1) ∧
      (customer_order_nos orders (user.map User.id) (py_lower (py_strip formEmail)) = [] →
        newOrder.user_order_no = some 1) ∧
      (∀ no ∈ customer_order_nos orders (user.map User.id) (py_lower (py_strip formEmail)),
        no < next_user_order_no orders (user.map User.id) (py_lower (py_strip formEmail))) ∧
      next_user_order_no (orders ++ [newOrder]) (user.map User.id)
          (py_lower (py_strip formEmail)) =
        next_user_order_no orders (user.map User.id) (py_lower (py_strip formEmail)) + 1 := by
  refine ⟨checkout_new_order user orders newOrderId formName formEmail formAddress items,
    checkout_post_creates products sessionCart user orders newOrderId
      formName formEmail formAddress items total hitems htotal hname hemail haddr,
    rfl, ?_, ?_, ?_⟩
  · intro hnil
    show some (next_user_order_no orders (user.map User.id) (py_lower (py_strip formEmail)))
      = some 1
    unfold next_user_order_no
    rw [hnil]
    rfl
  · intro no hno
    have := le_max?_getD hno
    unfold next_user_order_no
    omega
  · have hmatch : order_matches (user.map User.id) (py_lower (py_strip formEmail))
        (checkout_new_order user orders newOrderId formName formEmail formAddress items)
        = true := by
      unfold order_matches checkout_new_order
      cases hu : user.map User.id with
      | none => simp [hu]
      | some u => simp [hu]
    have hbound : ∀ x ∈ customer_order_nos orders (user.map User.id)
        (py_lower (py_strip formEmail)),
        x ≤ next_user_order_no orders (user.map User.id) (py_lower (py_strip formEmail)) := by
      intro x hx
      have := le_max?_getD hx
      unfold next_user_order_no
      omega
    have happ : customer_order_nos (orders ++
        [checkout_new_order user orders newOrderId formName formEmail formAddress items])
        (user.map User.id) (py_lower (py_strip formEmail)) =
        customer_order_nos orders (user.map User.id) (py_lower (py_strip formEmail)) ++
          [next_user_order_no orders (user.map User.id) (py_lower (py_strip formEmail))] := by
      unfold customer_order_nos
      rw [List.filter_append, List.filterMap_append]
      congr 1
      rw [List.filter_cons, hmatch]
      rfl
    unfold next_user_order_no
    rw [happ, max?_append_singleton _ _ hbound]
    rfl

/-- Witness for C2 at a concrete input: the customer (user 42) already has
an order numbered 4; the checkout order is numbered 5, and a following one
would be numbered 6. -/
theorem C2_order_numbering_witness :
    ∃ newOrder : Order,
      checkout_post none [⟨1, "a", 5⟩] (some [("1", 2)])
          (some ⟨42, "u@x", "h", false, "", "addr", false⟩)
          [⟨9, some 42, "n", "u@x", "a", "Оплачено", some 4, none, []⟩] 10
          "Ivan" "I@X.com" "street 1" =
        some ([⟨9, some 42, "n", "u@x", "a", "Оплачено", some 4, none, []⟩] ++ [newOrder],
          save_cart [], CheckoutResult.thankyou) ∧
      newOrder.user_order_no = some
        (((customer_order_nos [⟨9, some 42, "n", "u@x", "a", "Оплачено", some 4, none, []⟩]
          ((some ⟨42, "u@x", "h", false, "", "addr", false⟩ : Option User).map User.id)
          (py_lower (py_strip "I@X.com"))).max?).getD 0 + 1) ∧
      (customer_order_nos [⟨9, some 42, "n", "u@x", "a", "Оплачено", some 4, none, []⟩]
          ((some ⟨42, "u@x", "h", false, "", "addr", false⟩ : Option User).map User.id)
          (py_lower (py_strip "I@X.com")) = [] →
        newOrder.user_order_no = some 1) ∧
      (∀ no ∈ customer_order_nos [⟨9, some 42, "n", "u@x", "a", "Оплачено", some 4, none, []⟩]
          ((some ⟨42, "u@x", "h", false, "", "addr", false⟩ : Option User).map User.id)
          (py_lower (py_strip "I@X.com")),
        no < next_user_order_no [⟨9, some 42, "n", "u@x", "a", "Оплачено", some 4, none, []⟩]
          ((some ⟨42, "u@x", "h", false, "", "addr", false⟩ : Option User).map User.id)
          (py_lower (py_strip "I@X.com"))) ∧
      next_user_order_no ([⟨9, some 42, "n", "u@x", "a", "Оплачено", some 4, none, []⟩] ++
          [newOrder])
          ((some ⟨42, "u@x", "h", false, "", "addr", false⟩ : Option User).map User.id)
          (py_lower (py_strip "I@X.com")) =
        next_user_order_no [⟨9, some 42, "n", "u@x", "a", "Оплачено", some 4, none, []⟩]
          ((some ⟨42, "u@x", "h", false, "", "addr", false⟩ : Option User).map User.id)
          (py_lower (py_strip "I@X.com")) + 1 :=
  C2_order_numbering [⟨1, "a", 5⟩] (some [("1", 2)])
    (some ⟨42, "u@x", "h", false, "", "addr", false⟩)
    [⟨9, some 42, "n", "u@x", "a", "Оплачено", some 4, none, []⟩] 10
    "Ivan" "I@X.com" "street 1"
    [⟨⟨1, "a", 5⟩, 2, 10⟩] 10
    (by
      have h1 : parse_ids [("1", 2)] = some [1] := rfl
      have h2 : (toString (1 : Nat)) = "1" := rfl
      unfold cart_items get_cart
      norm_num [h1, cart_items_step, cart_line_of, Cart.get, List.filter, h2])
    (by norm_num) (by decide) (by decide) (by decide)

/-- C1: a checkout POST with no Stripe keys, a cart of positive total whose
entries are canonical keys of existing products, and non-empty (stripped)
name, email and resolved address creates exactly one order carrying one
`OrderItem` per cart line — same quantity as the cart, `price_snapshot`
equal to the product's current price — marks it "Ожидание оплаты"
(awaiting payment) and saves the empty dict as the session cart. -/
theorem C1_checkout_no_stripe (products : List Product) (sessionCart : Option Cart)
    (user : Option User) (orders : List Order) (newOrderId : Nat)
    (formName formEmail formAddress : String) (items : List CartLine) (total : Rat)
    (hitems : cart_items products (get_cart sessionCart) = some (items, total))
    (htotal : 0 < total)
    (hname : py_strip formName ≠ "") (hemail : py_lower (py_strip formEmail) ≠ "")
    (haddr : checkout_address user formAddress ≠ "")
    (hkeys : ∀ e ∈ get_cart sessionCart, ∃ p ∈ products,
      e.1 = toString p.id ∧ py_int? e.1 = some ((p.id : Nat) : Int))
    (hnodupP : (products.map Product.id).Nodup)
    (hnodupK : ((get_cart sessionCart).map Prod.fst).Nodup) :
    ∃ newOrder : Order,
      checkout_post none products sessionCart user orders newOrderId
          formName formEmail formAddress =
        some (orders ++ [newOrder], save_cart [], CheckoutResult.thankyou) ∧
      newOrder.status = "Ожидание оплаты" ∧
      newOrder.items.length = (get_cart sessionCart).length ∧
      (∀ e ∈ get_cart sessionCart, ∃ it ∈ newOrder.items,
        toString it.product_id = e.1 ∧ it.quantity = e.2 ∧
        ∃ p ∈ products, p.id = it.product_id ∧ it.price_snapshot = p.price) ∧
      (∀ it ∈ newOrder.items,
        Cart.get (get_cart sessionCart) (toString it.product_id) = some it.quantity ∧
        ∃ p ∈ products, p.id = it.product_id ∧ it.price_snapshot = p.price) ∧
      save_cart [] = some [] := by
  obtain ⟨ids, hids, hiff⟩ := parse_ids_some (get_cart sessionCart) (by
    intro e he
    obtain ⟨p, _, _, h2⟩ := hkeys e he
    exact ⟨_, h2⟩)
  have hci := @cart_items_of_parse products (get_cart sessionCart) ids hids
  rw [hitems] at hci
  have hpair := Option.some.inj hci
  have hitemsEq : items = (products.filter
      (fun p => ids.contains ((p.id : Int)))).map (cart_line_of (get_cart sessionCart)) :=
    congrArg Prod.fst hpair
  refine ⟨checkout_new_order user orders newOrderId formName formEmail formAddress items,
    checkout_post_creates products sessionCart user orders newOrderId
      formName formEmail formAddress items total hitems htotal hname hemail haddr,
    rfl, ?_, ?_, ?_, rfl⟩
  · show (items.map order_item_of).length = (get_cart sessionCart).length
    rw [List.length_map, hitemsEq, List.length_map]
    exact selected_length hids hkeys hnodupP hnodupK
  · intro e he
    obtain ⟨p, hp, h1, h2⟩ := hkeys e he
    have hpid_mem : ((p.id : Nat) : Int) ∈ ids := (hiff _).mpr ⟨e, he, h2⟩
    have hpsel : p ∈ products.filter (fun p => ids.contains ((p.id : Int))) :=
      List.mem_filter.mpr ⟨hp, List.elem_eq_true_of_mem hpid_mem⟩
    have hline : cart_line_of (get_cart sessionCart) p ∈ items := by
      rw [hitemsEq]
      exact List.mem_map_of_mem _ hpsel
    have hget : Cart.get (get_cart sessionCart) (toString p.id) = some e.2 := by
      rw [← h1]
      exact Cart.get_of_mem_nodup hnodupK he
    refine ⟨order_item_of (cart_line_of (get_cart sessionCart) p),
      List.mem_map_of_mem _ hline, h1.symm, ?_, p, hp, rfl, rfl⟩
    show (Cart.get (get_cart sessionCart) (toString p.id)).getD 0 = e.2
    rw [hget]
    rfl
  · intro it hit
    obtain ⟨l, hl, rfl⟩ := List.mem_map.mp hit
    rw [hitemsEq] at hl
    obtain ⟨p, hpsel, rfl⟩ := List.mem_map.mp hl
    have hp := (List.mem_filter.mp hpsel).1
    have hpidids : ((p.id : Nat) : Int) ∈ ids :=
      List.mem_of_elem_eq_true (List.mem_filter.mp hpsel).2
    obtain ⟨e, he, hpe⟩ := (hiff _).mp hpidids
    obtain ⟨p', hp', h1', h2'⟩ := hkeys e he
    have heqi : ((p'.id : Nat) : Int) = ((p.id : Nat) : Int) := by
      rw [h2'] at hpe
      exact Option.some.inj hpe
    have hpp : p'.id = p.id := Nat.cast_injective heqi
    have hkey : e.1 = toString p.id := by rw [h1', hpp]
    have hget : Cart.get (get_cart sessionCart) (toString p.id) = some e.2 := by
      rw [← hkey]
      exact Cart.get_of_mem_nodup hnodupK he
    refine ⟨?_, p, hp, rfl, rfl⟩
    show Cart.get (get_cart sessionCart) (toString p.id) =
      some ((Cart.get (get_cart sessionCart) (toString p.id)).getD 0)
    rw [hget]
    rfl

/-- Witness for C1 at a concrete input: a two-line cart over two products,
no Stripe keys; the created order carries both lines and the cart is
cleared. -/
theorem C1_checkout_no_stripe_witness :
    ∃ newOrder : Order,
      checkout_post none [⟨1, "a", 5⟩, ⟨2, "b", 3⟩] (some [("1", 2), ("2", 1)])
          none [] 1 "Ivan" "I@X.com" "street 1" =
        some ([] ++ [newOrder], save_cart [], CheckoutResult.thankyou) ∧
      newOrder.status = "Ожидание оплаты" ∧
      newOrder.items.length = (get_cart (some [("1", 2), ("2", 1)])).length ∧
      (∀ e ∈ get_cart (some [("1", 2), ("2", 1)]), ∃ it ∈ newOrder.items,
        toString it.product_id = e.1 ∧ it.quantity = e.2 ∧
        ∃ p ∈ [(⟨1, "a", 5⟩ : Product), ⟨2, "b", 3⟩],
          p.id = it.product_id ∧ it.price_snapshot = p.price) ∧
      (∀ it ∈ newOrder.items,
        Cart.get (get_cart (some [("1", 2), ("2", 1)])) (toString it.product_id) =
          some it.quantity ∧
        ∃ p ∈ [(⟨1, "a", 5⟩ : Product), ⟨2, "b", 3⟩],
          p.id = it.product_id ∧ it.price_snapshot = p.price) ∧
      save_cart [] = some [] :=
  C1_checkout_no_stripe [⟨1, "a", 5⟩, ⟨2, "b", 3⟩] (some [("1", 2), ("2", 1)])
    none [] 1 "Ivan" "I@X.com" "street 1"
    [⟨⟨1, "a", 5⟩, 2, 10⟩, ⟨⟨2, "b", 3⟩, 1, 3⟩] 13
    (by
      have h1 : parse_ids [("1", 2), ("2", 1)] = some [1, 2] := rfl
      have h2 : (toString (1 : Nat)) = "1" := rfl
      have h3 : (toString (2 : Nat)) = "2" := rfl
      have h4 : (("1" : String) = "2") ↔ False := iff_false_intro (by decide)
      have h5 : (("2" : String) = "1") ↔ False := iff_false_intro (by decide)
      unfold cart_items get_cart
      norm_num [h1, cart_items_step, cart_line_of, Cart.get, List.filter, h2, h3, h4, h5])
    (by norm_num) (by decide) (by decide) (by decide)
    (by
      intro e he
      rcases List.mem_cons.mp he with h | h
      · exact ⟨⟨1, "a", 5⟩, by decide, by rw [h]; decide, by rw [h]; rfl⟩
      · rcases List.mem_cons.mp h with h' | h'
        · exact ⟨⟨2, "b", 3⟩, by decide, by rw [h']; decide, by rw [h']; rfl⟩
        · cases h')
    (by decide) (by decide)

/-- A signed time-stamped token as produced by `URLSafeTimedSerializer.dumps`
in `auth._ts` (itsdangerous): the payload email, the issue time (seconds),
and whether its signature verifies against the app secret and salt. -/
structure Token where
  email : String
  issuedAt : Nat
  validSig : Bool
  deriving Repr, DecidableEq

inductive TokenError where
  | expired
  | badSignature
  deriving Repr, DecidableEq

/-- `URLSafeTimedSerializer.loads(token, max_age=...)`: a bad signature
raises BadSignature, a validly signed token older than `max_age` seconds
raises SignatureExpired, otherwise the signed payload is returned. -/
def ts_loads (tk : Token) (maxAge now : Nat) : Except TokenError String :=
  if tk.validSig = false then Except.error TokenError.badSignature
  else if now - tk.issuedAt > maxAge then Except.error TokenError.expired
  else Except.ok tk.email

theorem ts_loads_ok {tk : Token} {maxAge now : Nat} {email : String}
    (h : ts_loads tk maxAge now = Except.ok email) :
    tk.validSig = true ∧ now - tk.issuedAt ≤ maxAge ∧ email = tk.email := by
  unfold ts_loads at h
  by_cases h1 : tk.validSig = false
  · rw [if_pos h1] at h; cases h
  · rw [if_neg h1] at h
    by_cases h2 : now - tk.issuedAt > maxAge
    · rw [if_pos h2] at h; cases h
    · rw [if_neg h2] at h
      refine ⟨?_, le_of_not_lt h2, (Except.ok.inj h).symm⟩
      cases hb : tk.validSig
      · exact absurd hb h1
      · rfl

inductive ConfirmResult where
  | redirectExpired
  | redirectBadLink
  | forbidden
  | redirectConfirmed
  deriving Repr, DecidableEq

/-- `confirm_email` from `app/blueprints/auth/routes.py`: loads the token
with `max_age=60*60*24`, compares the signed email with the current user's
email case-insensitively (403 on mismatch), and only then sets
`email_confirmed` and commits. -/
def confirm_email (tk : Token) (u : User) (now : Nat) : User × ConfirmResult :=
  match ts_loads tk (60 * 60 * 24) now with
  | Except.error TokenError.expired => (u, ConfirmResult.redirectExpired)
  | Except.error TokenError.badSignature => (u, ConfirmResult.redirectBadLink)
  | Except.ok email =>
    if py_lower email ≠ py_lower u.email then (u, ConfirmResult.forbidden)
    else ({ u with email_confirmed := true }, ConfirmResult.redirectConfirmed)

inductive ResetResult where
  | redirectExpired
  | redirectBadLink
  | redirectUserNotFound
  | redirectMismatch
  | redirectWeak
  | redirectLogin
  deriving Repr, DecidableEq

/-- `password_reset` POST from `app/blueprints/auth/routes.py`: loads the
token with `max_age=60*30`, looks up the user by the lower-cased signed
email (emails are unique, so the map updates the one matching row), checks
the two submitted passwords match and are strong, then stores the new
hash. -/
def password_reset (tk : Token) (users : List User) (now : Nat) (pwd pwd2 : String) :
    List User × ResetResult :=
  match ts_loads tk (60 * 30) now with
  | Except.error TokenError.expired => (users, ResetResult.redirectExpired)
  | Except.error TokenError.badSignature => (users, ResetResult.redirectBadLink)
  | Except.ok email =>
    if users.any (fun u => u.email = py_lower email) then
      if pwd ≠ pwd2 then (users, ResetResult.redirectMismatch)
      else if password_is_strong pwd = false then (users, ResetResult.redirectWeak)
      else (users.map (fun u => if u.email = py_lower email then set_password u pwd else u),
        ResetResult.redirectLogin)
    else (users, ResetResult.redirectUserNotFound)

/-- C5: (for app-issued tokens, whose payload and stored user emails are
lower-case) the email-confirmation operation succeeds exactly when the
token is validly signed, at most 24 hours old, and signed for the current
user's email — and sets `email_confirmed` exactly then; the password-reset
operation changes user state only when the token is validly signed and at
most 30 minutes old; every expired or badly-signed token makes both
operations redirect with an error and change no user state. -/
theorem C5_token_time_limits (tk : Token) (u : User) (users : List User) (now : Nat)
    (pwd pwd2 : String)
    (hlowtk : py_lower tk.email = tk.email) (hlowu : py_lower u.email = u.email) :
    (confirm_email tk u now =
        ({ u with email_confirmed := true }, ConfirmResult.redirectConfirmed) ↔
      (tk.validSig = true ∧ now - tk.issuedAt ≤ 60 * 60 * 24 ∧ tk.email = u.email)) ∧
    ((confirm_email tk u now).2 ≠ ConfirmResult.redirectConfirmed →
      (confirm_email tk u now).1 = u) ∧
    (tk.validSig = false →
      confirm_email tk u now = (u, ConfirmResult.redirectBadLink) ∧
      password_reset tk users now pwd pwd2 = (users, ResetResult.redirectBadLink)) ∧
    (tk.validSig = true → 60 * 60 * 24 < now - tk.issuedAt →
      confirm_email tk u now = (u, ConfirmResult.redirectExpired)) ∧
    (tk.validSig = true → 60 * 30 < now - tk.issuedAt →
      password_reset tk users now pwd pwd2 = (users, ResetResult.redirectExpired)) ∧
    ((password_reset tk users now pwd pwd2).1 ≠ users →
      tk.validSig = true ∧ now - tk.issuedAt ≤ 60 * 30) := by
  have hload : ∀ maxAge : Nat, tk.validSig = true → now - tk.issuedAt ≤ maxAge →
      ts_loads tk maxAge now = Except.ok tk.email := by
    intro maxAge hs hf
    unfold ts_loads
    rw [hs]
    rw [if_neg (by simp), if_neg (not_lt.mpr hf)]
  have hbad : tk.validSig = false →
      ∀ maxAge : Nat, ts_loads tk maxAge now = Except.error TokenError.badSignature := by
    intro hs maxAge
    unfold ts_loads
    rw [if_pos hs]
  have hexp : tk.validSig = true → ∀ maxAge : Nat, maxAge < now - tk.issuedAt →
      ts_loads tk maxAge now = Except.error TokenError.expired := by
    intro hs maxAge hold
    unfold ts_loads
    rw [hs, if_neg (by simp), if_pos hold]
  refine ⟨?_, ?_, ?_, ?_, ?_, ?_⟩
  · constructor
    · intro h
      cases hl : ts_loads tk (60 * 60 * 24) now with
      | error e =>
        unfold confirm_email at h
        cases e <;> simp only [hl] at h <;> simp at h
      | ok email =>
        obtain ⟨hs, hf, hee⟩ := ts_loads_ok hl
        refine ⟨hs, hf, ?_⟩
        unfold confirm_email at h
        simp only [hl] at h
        by_cases hm : py_lower email ≠ py_lower u.email
        · rw [if_pos hm] at h
          simp at h
        · rw [not_not] at hm
          rw [hee] at hm
          rw [← hlowtk, ← hlowu]
          exact hm
    · rintro ⟨hs, hf, he⟩
      unfold confirm_email
      simp only [hload _ hs hf]
      rw [if_neg (by rw [not_not, he])]
  · intro h
    unfold confirm_email at h ⊢
    cases hl : ts_loads tk (60 * 60 * 24) now with
    | error e => cases e <;> simp only [hl]
    | ok email =>
      simp only [hl] at h ⊢
      by_cases hm : py_lower email ≠ py_lower u.email
      · rw [if_pos hm]
      · rw [if_neg hm] at h
        simp at h
  · intro hs
    constructor
    · unfold confirm_email
      simp only [hbad hs]
    · unfold password_reset
      simp only [hbad hs]
  · intro hs hold
    unfold confirm_email
    simp only [hexp hs _ hold]
  · intro hs hold
    unfold password_reset
    simp only [hexp hs _ hold]
  · intro h
    cases hl : ts_loads tk (60 * 30) now with
    | error e =>
      unfold password_reset at h
      cases e <;> simp only [hl] at h <;> simp at h
    | ok email =>
      obtain ⟨hs, hf, _⟩ := ts_loads_ok hl
      exact ⟨hs, hf⟩

/-- Witness for C5 at a concrete input: a fresh, validly signed token for
the logged-in user's email. -/
theorem C5_token_time_limits_witness :
    (confirm_email ⟨"u@x", 0, true⟩ ⟨1, "u@x", "h", false, "", "", false⟩ 100 =
        ({ (⟨1, "u@x", "h", false, "", "", false⟩ : User) with email_confirmed := true },
          ConfirmResult.redirectConfirmed) ↔
      ((true : Bool) = true ∧ 100 - 0 ≤ 60 * 60 * 24 ∧ ("u@x" : String) = "u@x")) ∧
    ((confirm_email ⟨"u@x", 0, true⟩ ⟨1, "u@x", "h", false, "", "", false⟩ 100).2 ≠
        ConfirmResult.redirectConfirmed →
      (confirm_email ⟨"u@x", 0, true⟩ ⟨1, "u@x", "h", false, "", "", false⟩ 100).1 =
        ⟨1, "u@x", "h", false, "", "", false⟩) ∧
    ((true : Bool) = false →
      confirm_email ⟨"u@x", 0, true⟩ ⟨1, "u@x", "h", false, "", "", false⟩ 100 =
        (⟨1, "u@x", "h", false, "", "", false⟩, ConfirmResult.redirectBadLink) ∧
      password_reset ⟨"u@x", 0, true⟩ [⟨1, "u@x", "h", false, "", "", false⟩] 100
          "Abcd1!" "Abcd1!" =
        ([⟨1, "u@x", "h", false, "", "", false⟩], ResetResult.redirectBadLink)) ∧
    ((true : Bool) = true → 60 * 60 * 24 < 100 - 0 →
      confirm_email ⟨"u@x", 0, true⟩ ⟨1, "u@x", "h", false, "", "", false⟩ 100 =
        (⟨1, "u@x", "h", false, "", "", false⟩, ConfirmResult.redirectExpired)) ∧
    ((true : Bool) = true → 60 * 30 < 100 - 0 →
      password_reset ⟨"u@x", 0, true⟩ [⟨1, "u@x", "h", false, "", "", false⟩] 100
          "Abcd1!" "Abcd1!" =
        ([⟨1, "u@x", "h", false, "", "", false⟩], ResetResult.redirectExpired)) ∧
    ((password_reset ⟨"u@x", 0, true⟩ [⟨1, "u@x", "h", false, "", "", false⟩] 100
        "Abcd1!" "Abcd1!").1 ≠ [⟨1, "u@x", "h", false, "", "", false⟩] →
      (true : Bool) = true ∧ 100 - 0 ≤ 60 * 30) :=
  C5_token_time_limits ⟨"u@x", 0, true⟩ ⟨1, "u@x", "h", false, "", "", false⟩
    [⟨1, "u@x", "h", false, "", "", false⟩] 100 "Abcd1!" "Abcd1!" (by decide) (by decide)

end HackShop
